import Mathlib

/-!
Verification of the gonginx configuration parser (tokenizer in
src/parser/lexer.go, recursive-descent parser in src/unnamed/part_000).

The embedding models characters as natural-number code points and the
lexer/parser state records exactly the fields of the Go structs that the
algorithms read or write.  The `token` and `gonginx` helper packages are
not part of the sources; the few definitions taken from the
specification instead of the code are marked `Modelled from the spec:`
in their doc comments.
-/

set_option maxRecDepth 20000

namespace Gonginx

/-- Character codes of a string, used to express inputs and literals. -/
def chars (s : String) : List Nat := s.data.map Char.toNat

/-- Modelled from the spec: the `token` package is not among the sources.
`token.EOF` is the zero element of the token-type enumeration, and the
lexer uses `rune(token.EOF)`, i.e. code point 0, as the sentinel
character returned by `read`/`peek` at end of input. -/
def EOFch : Nat := 0

/-- isEndOfLine from lexer.go: carriage return or line feed. -/
def isEndOfLine (ch : Nat) : Bool := ch = 13 || ch = 10

/-- isSpace from lexer.go: blank, tab, or an end-of-line character. -/
def isSpace (ch : Nat) : Bool := ch = 32 || ch = 9 || isEndOfLine ch

/-- isEOF from lexer.go: the sentinel character. -/
def isEOFch (ch : Nat) : Bool := ch = EOFch

/-- isQuote from lexer.go: double quote, single quote, or backtick. -/
def isQuote (ch : Nat) : Bool := ch = 34 || ch = 39 || ch = 96

/-- isKeywordTerminator from lexer.go. -/
def isKeywordTerminator (ch : Nat) : Bool :=
  isSpace ch || isEndOfLine ch || ch = 123 || ch = 59

/-- needsEscape from lexer.go: the characters that form an escape
sequence after a backslash inside a quoted string. -/
def needsEscape (ch delim : Nat) : Bool :=
  ch = delim || ch = 110 || ch = 116 || ch = 92 || ch = 114

/-- Token types of the token package, as enumerated by the spec and used
by lexer.go and the parser. -/
inductive TokenType where
  | EOF
  | Keyword
  | QuotedString
  | Variable
  | BlockStart
  | BlockEnd
  | Semicolon
  | Comment
deriving DecidableEq

/-- token.Token: a kind, the literal text, and the line/column recorded
at creation time. -/
structure Token where
  type : TokenType
  literal : List Nat
  line : Nat
  column : Nat
deriving DecidableEq

/-- The lexer state: the remaining input, the file name, and the
line/column counters (`line` starts at 1, `column` at Go zero value 0). -/
structure LexState where
  input : List Nat
  file : String
  line : Nat
  column : Nat
deriving DecidableEq

/-- The line/column update performed by `read` in lexer.go when one
character is consumed: a line feed resets the column to 1 and bumps the
line, anything else bumps the column. -/
def advancePos (lc : Nat × Nat) (ch : Nat) : Nat × Nat :=
  if ch = 10 then (lc.1 + 1, 1) else (lc.1, lc.2 + 1)

/-- The line/column counters after consuming a character list, starting
from line l and column c. -/
def posFrom (l c : Nat) (cs : List Nat) : Nat × Nat :=
  cs.foldl advancePos (l, c)

/-- read from lexer.go: consume one character, updating line/column; at
end of input it returns the sentinel and leaves the state unchanged. -/
def read : LexState → Nat × LexState
  | ⟨[], fl, l, c⟩ => (EOFch, ⟨[], fl, l, c⟩)
  | ⟨ch :: rest, fl, l, c⟩ =>
    (ch, ⟨rest, fl, (advancePos (l, c) ch).1, (advancePos (l, c) ch).2⟩)

/-- peek from lexer.go: the next character without consuming it (the
sentinel at end of input). -/
def peek : LexState → Nat
  | ⟨[], _, _, _⟩ => EOFch
  | ⟨ch :: _, _, _, _⟩ => ch

/-- The loop of readWhile in lexer.go: keep consuming while the
predicate holds of the peeked character.  The recursion runs over the
remaining input list; the line/column counters are threaded alongside
and the final lexer state is rebuilt at the end. -/
def readWhileLoop (p : Nat → Bool) (fl : String) : List Nat → Nat → Nat → List Nat × LexState
  | [], l, c => ([], ⟨[], fl, l, c⟩)
  | ch :: rest, l, c =>
    if p ch then
      let r := readWhileLoop p fl rest (advancePos (l, c) ch).1 (advancePos (l, c) ch).2
      (ch :: r.1, r.2)
    else ([], ⟨ch :: rest, fl, l, c⟩)

/-- readWhile from lexer.go: one unconditional read, then the loop. -/
def readWhile (p : Nat → Bool) (s : LexState) : List Nat × LexState :=
  let f := read s
  let r := readWhileLoop p f.2.file f.2.input f.2.line f.2.column
  (f.1 :: r.1, r.2)

/-- The loop of readUntil in lexer.go: keep consuming until end of input
or until the predicate holds of the peeked character. -/
def readUntilLoop (p : Nat → Bool) (fl : String) : List Nat → Nat → Nat → List Nat × LexState
  | [], l, c => ([], ⟨[], fl, l, c⟩)
  | ch :: rest, l, c =>
    if isEOFch ch || p ch then ([], ⟨ch :: rest, fl, l, c⟩)
    else
      let r := readUntilLoop p fl rest (advancePos (l, c) ch).1 (advancePos (l, c) ch).2
      (ch :: r.1, r.2)

/-- readUntil from lexer.go: one unconditional read, then the loop. -/
def readUntil (p : Nat → Bool) (s : LexState) : List Nat × LexState :=
  let f := read s
  let r := readUntilLoop p f.2.file f.2.input f.2.line f.2.column
  (f.1 :: r.1, r.2)

/-- skipWhitespace from lexer.go. -/
def skipWhitespace (s : LexState) : LexState :=
  (readWhile isSpace s).2

/-- scanComment from lexer.go; the token records the line/column held
before any of its characters are consumed. -/
def scanComment (s : LexState) : Token × LexState :=
  let r := readUntil isEndOfLine s
  (⟨.Comment, r.1, s.line, s.column⟩, r.2)

/-- scanKeyword from lexer.go. -/
def scanKeyword (s : LexState) : Token × LexState :=
  let r := readUntil isKeywordTerminator s
  (⟨.Keyword, r.1, s.line, s.column⟩, r.2)

/-- scanVariable from lexer.go. -/
def scanVariable (s : LexState) : Token × LexState :=
  let r := readUntil isKeywordTerminator s
  (⟨.Variable, r.1, s.line, s.column⟩, r.2)

/-- The lexical error message of scanQuotedString in lexer.go. -/
def untermMsg : String :=
  r"unexpected end of file while scanning a string, maybe an unclosed quote? "

/-- The switch inside scanQuotedString that decodes one escape
character (cases in source order: n, r, t, backslash, delimiter); an
unmatched character writes nothing. -/
def escDecode (c d : Nat) : List Nat :=
  if c = 110 then [10]
  else if c = 114 then [13]
  else if c = 116 then [9]
  else if c = 92 then [92]
  else if c = d then [d]
  else []

/-- The scanning loop of scanQuotedString in lexer.go: read a character;
the sentinel is a lexical error; a backslash followed by an escapable
character consumes both and appends the decoded character; otherwise the
character is appended and the loop stops successfully when it is the
delimiter.  The recursion runs over the remaining input list with the
line/column counters threaded alongside.  When a taken escape has no
following character the loop re-reads the sentinel and fails on the next
iteration, which is inlined here as the direct error. -/
def qsLoop (delim : Nat) (fl : String) : List Nat → List Nat → Nat → Nat → Except String (List Nat × LexState)
  | _, [], _, _ => .error untermMsg
  | buf, ch :: rest, l, c =>
    if ch = EOFch then .error untermMsg
    else if ch = 92 && needsEscape (rest.headD EOFch) delim then
      match rest with
      | [] => .error untermMsg
      | c₂ :: rest₂ =>
        qsLoop delim fl (buf ++ escDecode c₂ delim) rest₂
          (advancePos (advancePos (l, c) ch) c₂).1 (advancePos (advancePos (l, c) ch) c₂).2
    else if ch = delim then
      .ok (buf ++ [ch], ⟨rest, fl, (advancePos (l, c) ch).1, (advancePos (l, c) ch).2⟩)
    else qsLoop delim fl (buf ++ [ch]) rest (advancePos (l, c) ch).1 (advancePos (l, c) ch).2

/-- scanQuotedString from lexer.go: the token position is recorded
first, the delimiter is consumed into the buffer, then the loop runs. -/
def scanQuotedString (delim : Nat) (s : LexState) : Except String (Token × LexState) :=
  let f := read s
  match qsLoop delim f.2.file [f.1] f.2.input f.2.line f.2.column with
  | .error e => .error e
  | .ok r => .ok (⟨.QuotedString, r.1, s.line, s.column⟩, r.2)

/-- The switch of getNextToken in lexer.go, after the whitespace case:
end of input, the three single-character tokens, comment, variable,
quoted string, and the keyword fallback. -/
def getNextTokenCore (s : LexState) : Except String (Token × LexState) :=
  if isEOFch (peek s) then
    let f := read s
    .ok (⟨.EOF, [f.1], s.line, s.column⟩, f.2)
  else if peek s = 59 then
    let f := read s
    .ok (⟨.Semicolon, [f.1], s.line, s.column⟩, f.2)
  else if peek s = 123 then
    let f := read s
    .ok (⟨.BlockStart, [f.1], s.line, s.column⟩, f.2)
  else if peek s = 125 then
    let f := read s
    .ok (⟨.BlockEnd, [f.1], s.line, s.column⟩, f.2)
  else if peek s = 35 then .ok (scanComment s)
  else if peek s = 36 then .ok (scanVariable s)
  else if isQuote (peek s) then scanQuotedString (peek s) s
  else .ok (scanKeyword s)

/-- getNextToken from lexer.go.  The goto-loop for whitespace runs at
most once, because skipWhitespace leaves a non-space character (or end
of input) at the head, so it is expressed as one conditional skip. -/
def getNextToken (s : LexState) : Except String (Token × LexState) :=
  if isSpace (peek s) then getNextTokenCore (skipWhitespace s)
  else getNextTokenCore s

/-- scan from lexer.go.  The `Latest` diagnostic field of the lexer is
written by scan but never read by the parser, so it is omitted from the
state. -/
def scan (s : LexState) : Except String (Token × LexState) :=
  getNextToken s

/-- lex from lexer.go: the initial lexer state for in-memory content
(file name empty, line 1, column at its Go zero value 0). -/
def lex (content : List Nat) : LexState :=
  ⟨content, r"", 1, 0⟩

/-!  The parser (src/unnamed/part_000). -/

/-- The failure values of the parser pipeline.  `lexical` wraps a
tokenizer error string; `unexpectedToken` carries the payload of the
fmt.Errorf syntax error of parseStatement; `semantic` wraps the
errors.New messages of the typed-node wrappers; `goPanic` marks a Go
runtime panic (the embedding returns it where the Go code would crash);
`fuelExhausted` is an artifact of the fuel-indexed recursion and is
never produced when enough fuel is supplied. -/
inductive PErr where
  | lexical : String → PErr
  | unexpectedToken : TokenType → List Nat → Nat → Nat → PErr
  | semantic : String → PErr
  | goPanic : String → PErr
  | fuelExhausted : PErr
deriving DecidableEq

/-- gonginx.UpstreamServer as described by the data model: address,
ordered key=value parameters, bare flags. -/
structure UpstreamServer where
  address : List Nat
  parameters : List (List Nat × List Nat)
  flags : List (List Nat)
deriving DecidableEq

mutual
/-- The directive-like nodes of the document tree: the generic
gonginx.Directive plus the typed variants produced by the name-keyed
wrappers (Http, Server, Upstream, UpstreamServer, Location, Include). -/
inductive Node where
  | plain : Directive → Node
  | http : Directive → Node
  | server : Directive → Node
  | upstream : Directive → List UpstreamServer → Node
  | upstreamServer : UpstreamServer → Node
  | location : List Nat → List Nat → Directive → Node
  | includeNode : List Nat → Directive → Node

/-- gonginx.Directive: name, ordered parameters, optional nested block. -/
inductive Directive where
  | mk : List Nat → List (List Nat) → Option Block → Directive

/-- gonginx.Block: the ordered sequence of directive-like nodes. -/
inductive Block where
  | mk : List Node → Block
end

def Directive.name : Directive → List Nat
  | ⟨n, _, _⟩ => n

def Directive.parameters : Directive → List (List Nat)
  | ⟨_, ps, _⟩ => ps

def Directive.block : Directive → Option Block
  | ⟨_, _, b⟩ => b

def Block.directives : Block → List Node
  | ⟨ds⟩ => ds

/-- gonginx.Config: the source path and the root block. -/
structure Config where
  filePath : String
  block : Block

/-- The parser state: its lexer and the current/following token
window.  The statementParsers map of the Go struct is never populated
(nil map), and the block/directive wrapper maps are constants, so they
are not part of the state. -/
structure Parser where
  lexer : LexState
  currentToken : Token
  followingToken : Token

/-- The Go zero value of token.Token held by a fresh Parser before the
two constructor reads; its type is the numeric-zero token type (EOF).
It is overwritten before it can ever be observed. -/
def zeroToken : Token :=
  ⟨.EOF, [], 0, 0⟩

/-- nextToken from the parser: shift the window and scan one token,
propagating a lexer error. -/
def nextToken (p : Parser) : Except PErr Parser :=
  match scan p.lexer with
  | .error e => .error (.lexical e)
  | .ok r => .ok ⟨r.2, p.followingToken, r.1⟩

/-- NewParserFromLexer: two nextToken calls fill the current/following
window; an error from either is returned by the constructor itself. -/
def NewParserFromLexer (lx : LexState) : Except PErr Parser :=
  match nextToken ⟨lx, zeroToken, zeroToken⟩ with
  | .error e => .error e
  | .ok p₁ =>
    match nextToken p₁ with
    | .error e => .error e
    | .ok p₂ => .ok p₂

/-- NewStringParser: parse from an in-memory string. -/
def NewStringParser (s : List Nat) : Except PErr Parser :=
  NewParserFromLexer (lex s)

/-- Modelled from the spec: token.Token.IsParameterEligible lives in the
token package, which is not among the sources; per the spec a token is
parameter-eligible unless it is block-start, block-end, semicolon, or
end-of-input. -/
def Token.isParameterEligible (t : Token) : Bool :=
  match t.type with
  | .BlockStart | .BlockEnd | .Semicolon | .EOF => false
  | _ => true

/-- The directive name `server`. -/
def kwServer : List Nat := chars (r"server")

/-- The directive name `include`. -/
def kwInclude : List Nat := chars (r"include")

/-- The directive name `http`. -/
def kwHttp : List Nat := chars (r"http")

/-- The directive name `location`. -/
def kwLocation : List Nat := chars (r"location")

/-- The directive name `upstream`. -/
def kwUpstream : List Nat := chars (r"upstream")

/-- Modelled from the spec: gonginx.NewUpstreamServer is not among the
sources; per the spec the first parameter is the address, remaining
parameters containing `=` become ordered key/value pairs (split at the
first `=`), and the remaining bare parameters become flags. -/
def NewUpstreamServer (d : Directive) : UpstreamServer :=
  { address := d.parameters.headD []
    parameters := (d.parameters.drop 1).filterMap fun q =>
      if q.contains 61 then
        some (q.takeWhile (fun c => c ≠ 61), (q.dropWhile (fun c => c ≠ 61)).drop 1)
      else none
    flags := (d.parameters.drop 1).filter fun q => !q.contains 61 }

/-- The UpstreamServer entries found in a block (the typed nodes the
simple-directive wrapper already produced for `server ...;` members). -/
def upstreamServersOf (b : Block) : List UpstreamServer :=
  b.directives.filterMap fun n =>
    match n with
    | .upstreamServer us => some us
    | _ => none

/-- Modelled from the spec: wrapHttp/gonginx.NewHttp only reclassify the
directive as the Http variant (the wrapper discards any error). -/
def wrapHttp (d : Directive) : Node :=
  Node.http d

/-- Modelled from the spec: wrapServer/gonginx.NewServer only reclassify
the directive as the Server variant (the wrapper discards any error). -/
def wrapServer (d : Directive) : Node :=
  Node.server d

/-- Modelled from the spec: wrapUpstream/gonginx.NewUpstream
reclassifies the directive as the Upstream variant and scans its nested
block for server entries to populate the typed server list. -/
def wrapUpstream (d : Directive) : Node :=
  Node.upstream d (match d.block with
    | some b => upstreamServersOf b
    | none => [])

/-- parseInclude from the parser source.  Note the faithful order of
operations: `directive.Parameters[0]` is read before the parameter
count is checked, which in Go panics with an index-out-of-range runtime
error when the parameter list is empty; the embedding returns the
goPanic marker there. -/
def parseInclude (d : Directive) : Except PErr Node :=
  match d.parameters with
  | [] => .error (.goPanic (r"runtime error: index out of range"))
  | p₀ :: _ =>
    if 1 < d.parameters.length then
      .error (.semantic (r"include directive can not have multiple parameters"))
    else
      match d.block with
      | some _ =>
        .error (.semantic (r"include can not have a block, or missing semicolon at the end of include statement"))
      | none => .ok (Node.includeNode p₀ d)

/-- wrapLocation from the parser source: arity checks on the parameter
list, then modifier/match extraction. -/
def wrapLocation (d : Directive) : Except PErr Node :=
  if d.parameters.length = 0 then
    .error (.semantic (r"no enough parameter for location"))
  else if d.parameters.length = 1 then
    .ok (Node.location [] (d.parameters.getD 0 []) d)
  else if d.parameters.length = 2 then
    .ok (Node.location (d.parameters.getD 0 []) (d.parameters.getD 1 []) d)
  else
    .error (.semantic (r"too many arguments for location directive"))

/-- The parameter-accumulation loop of parseStatement: while the current
token is parameter-eligible, append its literal and advance. -/
def paramLoop : Nat → List (List Nat) → Parser → Except PErr (List (List Nat) × Parser)
  | 0, _, _ => .error .fuelExhausted
  | f + 1, acc, p =>
    if p.currentToken.isParameterEligible then
      match nextToken p with
      | .error e => .error e
      | .ok p₁ => paramLoop f (acc ++ [p.currentToken.literal]) p₁
    else .ok (acc, p)

/-- The tail of parseStatement after the parameter loop: a semicolon
makes a simple directive (applying the directiveWrappers map, keyed by
`server` and `include`); a block-start parses the nested block through
`recurBlock` and applies the blockWrappers map (keyed by `http`,
`server`, `location`, `upstream`); anything else is the
unexpected-token syntax error built from the current token.  The
nested-block parser is passed as a function so that the whole parser can
recurse structurally on its fuel. -/
def statementTailWith (recurBlock : Parser → Except PErr (Block × Parser))
    (d : Directive) (p : Parser) : Except PErr (Node × Parser) :=
  if p.currentToken.type = TokenType.Semicolon then
    if d.name = kwServer then .ok (Node.upstreamServer (NewUpstreamServer d), p)
    else if d.name = kwInclude then
      match parseInclude d with
      | .error e => .error e
      | .ok nd => .ok (nd, p)
    else .ok (Node.plain d, p)
  else if p.currentToken.type = TokenType.BlockStart then
    match recurBlock p with
    | .error e => .error e
    | .ok r =>
      let d₂ : Directive := ⟨d.name, d.parameters, some r.1⟩
      if d.name = kwHttp then .ok (wrapHttp d₂, r.2)
      else if d.name = kwServer then .ok (wrapServer d₂, r.2)
      else if d.name = kwLocation then
        match wrapLocation d₂ with
        | .error e => .error e
        | .ok nd => .ok (nd, r.2)
      else if d.name = kwUpstream then .ok (wrapUpstream d₂, r.2)
      else .ok (Node.plain d₂, r.2)
  else
    .error (.unexpectedToken p.currentToken.type p.currentToken.literal
      p.currentToken.line p.currentToken.column)

/-- parseStatement up to the parameter loop: the current keyword literal
becomes the name (the statementParsers map is nil in the source, so the
name-specific hook never fires), the parser advances past the name,
parameters are accumulated, and the statement is finished by the
statement tail. -/
def parseStatementWith (recurBlock : Parser → Except PErr (Block × Parser))
    (pf : Nat) (p : Parser) : Except PErr (Node × Parser) :=
  match nextToken p with
  | .error e => .error e
  | .ok p₁ =>
    match paramLoop pf [] p₁ with
    | .error e => .error e
    | .ok r => statementTailWith recurBlock ⟨p.currentToken.literal, r.1, none⟩ r.2

/-- The loop of parseBlock: stop at end-of-input or block-end (the
block-end token is consumed by the caller); parse a statement at a
keyword and append it; skip any other token; advance after each
iteration.  The first argument is recursion fuel, enough for the runs
the finite input allows. -/
def parseBlockLoop : Nat → Parser → List Node → Except PErr (Block × Parser)
  | 0, _, _ => .error .fuelExhausted
  | f + 1, p, acc =>
    if p.currentToken.type = TokenType.EOF ∨ p.currentToken.type = TokenType.BlockEnd then
      .ok (Block.mk acc, p)
    else if p.currentToken.type = TokenType.Keyword then
      match parseStatementWith (fun q => parseBlockLoop f q []) (f + 1) p with
      | .error e => .error e
      | .ok r =>
        match nextToken r.2 with
        | .error e => .error e
        | .ok p₂ => parseBlockLoop f p₂ (acc ++ [r.1])
    else
      match nextToken p with
      | .error e => .error e
      | .ok p₁ => parseBlockLoop f p₁ acc

/-- parseStatement as invoked with fuel f for its nested block. -/
def parseStatement (f : Nat) (p : Parser) : Except PErr (Node × Parser) :=
  parseStatementWith (fun q => parseBlockLoop f q []) (f + 1) p

/-- The statement tail as invoked with fuel f for its nested block. -/
def statementTail (f : Nat) (d : Directive) (p : Parser) : Except PErr (Node × Parser) :=
  statementTailWith (fun q => parseBlockLoop f q []) d p

/-- parseBlock from the parser source (the loop started with an empty
directive list). -/
def parseBlock (f : Nat) (p : Parser) : Except PErr (Block × Parser) :=
  parseBlockLoop f p []

/-- Parse from the parser source: parse the root block and wrap it in a
Config carrying the lexer file path. -/
def Parse (f : Nat) (p : Parser) : Except PErr Config :=
  match parseBlockLoop f p [] with
  | .error e => .error e
  | .ok r => .ok ⟨r.2.lexer.file, r.1⟩

/-- The whole pipeline on an in-memory string: NewStringParser followed
by Parse, with fuel amply larger than any run the input can make. -/
def parseConfig (s : List Nat) : Except PErr Config :=
  match NewStringParser s with
  | .error e => .error e
  | .ok p => Parse (4 * s.length + 16) p

/-- The closing condition of the quoted-string scanning loop, mirrored
on the raw character list after the opening delimiter: true exactly when
the loop of scanQuotedString reaches an unescaped closing delimiter
before end of input (or before the sentinel character). -/
def qsCloses (delim : Nat) : List Nat → Bool
  | [] => false
  | ch :: rest =>
    if ch = EOFch then false
    else if ch = 92 && needsEscape (rest.headD EOFch) delim then
      match rest with
      | [] => false
      | _ :: rest₂ => qsCloses delim rest₂
    else (ch = delim || qsCloses delim rest)

/-- A lexer state whose counters are those reached after consuming the
characters of `done`, with `rest` still to read. -/
def stateAfter (fl : String) (done rest : List Nat) : LexState :=
  ⟨rest, fl, (posFrom 1 0 done).1, (posFrom 1 0 done).2⟩

/-!  Claims C1 to C6, C10, and their witnesses. -/

/-- C1, counterexample.  The claim says that an input whose opened block
is never closed makes Parse fail and return no Config; but on the input
`server ` followed by an opening brace (and nothing else) the pipeline
succeeds and returns a Config holding a Server node with an empty
block. -/
theorem C1_counterexample :
    parseConfig ((chars (r"server")) ++ [32, 123]) =
      .ok ⟨r"", Block.mk [Node.server (Directive.mk (chars (r"server")) [] (some (Block.mk [])))]⟩ :=
  rfl

/-- C1, amended.  An unclosed block does not fail: the loop of
parseBlock stops at end-of-input exactly as it stops at a block-end
token, returning the directives collected so far, so Parse still
produces a Config. -/
theorem C1_unclosed_block_parses (f : Nat) (p : Parser) (acc : List Node)
    (h : p.currentToken.type = TokenType.EOF) :
    parseBlockLoop (f + 1) p acc = .ok (Block.mk acc, p) := by
  simp [parseBlockLoop, h]

/-- Witness for C1: the amended theorem applied to a parser whose
current token is the end-of-input token. -/
theorem C1_witness :
    parseBlockLoop 1 ⟨lex [], ⟨.EOF, [0], 1, 0⟩, ⟨.EOF, [0], 1, 0⟩⟩ [] =
      .ok (Block.mk [], ⟨lex [], ⟨.EOF, [0], 1, 0⟩, ⟨.EOF, [0], 1, 0⟩⟩) :=
  C1_unclosed_block_parses 0 ⟨lex [], ⟨.EOF, [0], 1, 0⟩, ⟨.EOF, [0], 1, 0⟩⟩ [] rfl

/-- C2.  The pipeline does not always surface failures as explicit error
results: on the input `include;` parseInclude reads Parameters[0] before
checking that the parameter list is non-empty, so the Go program aborts
with an index-out-of-range runtime panic (modelled by the goPanic
marker) instead of returning an error value. -/
theorem C2_include_no_param_panics :
    parseConfig (chars (r"include;")) =
      .error (.goPanic (r"runtime error: index out of range")) :=
  rfl

/-- C3.  Evaluation of the include shapes: zero parameters panic
(index out of range) instead of producing the semantic error; one
parameter with no block yields the Include node with that path; two
parameters yield the multiple-parameter semantic error; and an include
carrying a block is not rejected at all, because the directive wrapper
only runs on the semicolon path, so it stays a generic directive with a
block and parsing succeeds. -/
theorem C3_include_shapes :
    parseConfig (chars (r"include;")) =
      .error (.goPanic (r"runtime error: index out of range")) ∧
    parseConfig (chars (r"include a;")) =
      .ok ⟨r"", Block.mk [Node.includeNode [97] (Directive.mk (chars (r"include")) [[97]] none)]⟩ ∧
    parseConfig (chars (r"include a b;")) =
      .error (.semantic (r"include directive can not have multiple parameters")) ∧
    parseConfig ((chars (r"include a ")) ++ [123, 125]) =
      .ok ⟨r"", Block.mk [Node.plain (Directive.mk (chars (r"include")) [[97]] (some (Block.mk [])))]⟩ :=
  ⟨rfl, rfl, rfl, rfl⟩

/-- C4.  wrapLocation behaves exactly as claimed: one parameter gives an
empty modifier and that parameter as the match; two parameters give
modifier and match in order; zero parameters and three or more
parameters give the respective semantic errors. -/
theorem C4_wrapLocation_arity (d : Directive) :
    wrapLocation d =
      (match d.parameters with
        | [] => .error (.semantic (r"no enough parameter for location"))
        | [m] => .ok (Node.location [] m d)
        | [mo, m] => .ok (Node.location mo m d)
        | _ => .error (.semantic (r"too many arguments for location directive"))) := by
  rcases d with ⟨n, ps, b⟩
  rcases ps with _ | ⟨a, _ | ⟨a₂, _ | ⟨a₃, t⟩⟩⟩ <;>
    simp [wrapLocation, Directive.parameters]

/-- C5, counterexample.  The claim says a simple `server` directive
outside an upstream block stays a generic Directive; but at top level
the input `server a;` is still converted to the typed UpstreamServer
node, because the directive wrapper table is keyed by name only. -/
theorem C5_counterexample :
    parseConfig (chars (r"server a;")) =
      .ok ⟨r"", Block.mk [Node.upstreamServer ⟨[97], [], []⟩]⟩ :=
  rfl

/-- C5, amended.  A semicolon-terminated `server` directive is converted
to the typed UpstreamServer form in every context: the statement tail
applies the name-keyed wrapper for any parser state and any nested-block
parser, with no context consulted, and concretely the conversion happens
both directly inside `http` and inside `upstream`. -/
theorem C5_server_wrapped_everywhere :
    (∀ (recurBlock : Parser → Except PErr (Block × Parser)) (d : Directive) (p : Parser),
        d.name = kwServer → p.currentToken.type = TokenType.Semicolon →
        statementTailWith recurBlock d p = .ok (Node.upstreamServer (NewUpstreamServer d), p)) ∧
    parseConfig ((chars (r"http")) ++ [123, 32] ++ (chars (r"server a; ")) ++ [125]) =
      .ok ⟨r"", Block.mk [Node.http (Directive.mk (chars (r"http")) []
        (some (Block.mk [Node.upstreamServer ⟨[97], [], []⟩])))]⟩ ∧
    parseConfig ((chars (r"upstream u")) ++ [123, 32] ++ (chars (r"server a; ")) ++ [125]) =
      .ok ⟨r"", Block.mk [Node.upstream (Directive.mk (chars (r"upstream")) [[117]]
        (some (Block.mk [Node.upstreamServer ⟨[97], [], []⟩]))) [⟨[97], [], []⟩]]⟩ := by
  refine ⟨fun recurBlock d p h₁ h₂ => ?_, rfl, rfl⟩
  simp [statementTailWith, h₁, h₂]

/-- Witness for C5: the general part applied to a concrete simple
directive `server a` with the current token a semicolon. -/
theorem C5_witness :
    statementTailWith (fun _ => .error .fuelExhausted) ⟨kwServer, [[97]], none⟩
        ⟨lex [], ⟨.Semicolon, [59], 1, 1⟩, ⟨.EOF, [0], 1, 2⟩⟩ =
      .ok (Node.upstreamServer ⟨[97], [], []⟩,
        ⟨lex [], ⟨.Semicolon, [59], 1, 1⟩, ⟨.EOF, [0], 1, 2⟩⟩) :=
  C5_server_wrapped_everywhere.1 (fun _ => .error .fuelExhausted) ⟨kwServer, [[97]], none⟩
    ⟨lex [], ⟨.Semicolon, [59], 1, 1⟩, ⟨.EOF, [0], 1, 2⟩⟩ rfl rfl

/-- C6.  When, after the directive name and its accumulated parameters,
the current token is neither a semicolon nor a block-start, the
statement tail returns the syntax error carrying exactly the offending
token kind, literal, line and column, for every parser state and every
nested-block parser; the error propagates so the whole parse aborts with
no Config, as the concrete run on the input `a ` followed by a closing
brace shows. -/
theorem C6_unexpected_token_error :
    (∀ (recurBlock : Parser → Except PErr (Block × Parser)) (d : Directive) (p : Parser),
        p.currentToken.type ≠ TokenType.Semicolon →
        p.currentToken.type ≠ TokenType.BlockStart →
        statementTailWith recurBlock d p =
          .error (.unexpectedToken p.currentToken.type p.currentToken.literal
            p.currentToken.line p.currentToken.column)) ∧
    parseConfig ((chars (r"a ")) ++ [125]) =
      .error (.unexpectedToken TokenType.BlockEnd [125] 1 2) := by
  refine ⟨fun recurBlock d p h₁ h₂ => ?_, rfl⟩
  unfold statementTailWith
  rw [if_neg h₁, if_neg h₂]

/-- Witness for C6: the general part applied to a parser whose current
token is the end-of-input token. -/
theorem C6_witness :
    statementTailWith (fun _ => .error .fuelExhausted) ⟨[97], [], none⟩
        ⟨lex [], ⟨.EOF, [0], 1, 1⟩, ⟨.EOF, [0], 1, 1⟩⟩ =
      .error (.unexpectedToken TokenType.EOF [0] 1 1) :=
  C6_unexpected_token_error.1 (fun _ => .error .fuelExhausted) ⟨[97], [], none⟩
    ⟨lex [], ⟨.EOF, [0], 1, 1⟩, ⟨.EOF, [0], 1, 1⟩⟩ (by decide) (by decide)

/-!  Position bookkeeping lemmas for claim C7. -/

/-- Splitting a fold of the position update over an appended list. -/
theorem posFrom_append (l c : Nat) (xs ys : List Nat) :
    posFrom l c (xs ++ ys) = posFrom (posFrom l c xs).1 (posFrom l c xs).2 ys := by
  simp [posFrom, List.foldl_append]

/-- The line counter after a character list counts its line feeds. -/
theorem posFrom_line (cs : List Nat) : ∀ l c, (posFrom l c cs).1 = l + cs.count 10 := by
  induction cs with
  | nil => intro l c; simp [posFrom]
  | cons x t ih =>
    intro l c
    rw [show posFrom l c (x :: t) = posFrom (advancePos (l, c) x).1 (advancePos (l, c) x).2 t
      from by simp [posFrom]]
    rw [ih]
    by_cases hx : x = 10 <;> (simp [advancePos, hx, List.count_cons]; try omega)

/-- Starting the column counter one higher changes nothing once a line
feed has been consumed, and otherwise shifts the final column by one. -/
theorem posFrom_col_shift (cs : List Nat) : ∀ l c,
    (cs.count 10 = 0 → (posFrom l (c + 1) cs).2 = (posFrom l c cs).2 + 1) ∧
    (cs.count 10 ≠ 0 → posFrom l (c + 1) cs = posFrom l c cs) := by
  induction cs with
  | nil =>
    intro l c
    refine ⟨fun _ => by simp [posFrom], fun h => absurd (by simp) h⟩
  | cons x t ih =>
    intro l c
    have hstep : ∀ c₀, posFrom l c₀ (x :: t) =
        posFrom (advancePos (l, c₀) x).1 (advancePos (l, c₀) x).2 t := by
      intro c₀; simp [posFrom]
    by_cases hx : x = 10
    · refine ⟨fun h => ?_, fun _ => ?_⟩
      · exact absurd h (by simp [hx, List.count_cons])
      · rw [hstep, hstep, hx]
        simp [advancePos]
    · have h1 : posFrom l (c + 1) (x :: t) = posFrom l (c + 1 + 1) t := by
        rw [hstep]; simp [advancePos, hx]
      have h2 : posFrom l c (x :: t) = posFrom l (c + 1) t := by
        rw [hstep]; simp [advancePos, hx]
      have hcount : (x :: t).count 10 = t.count 10 := by simp [List.count_cons, hx]
      refine ⟨fun h => ?_, fun h => ?_⟩
      · rw [h1, h2]; exact (ih l (c + 1)).1 (by rwa [hcount] at h)
      · rw [h1, h2]; exact (ih l (c + 1)).2 (by rwa [hcount] at h)

/-- Reading one character from a counter-coherent state advances the
consumed part by that character. -/
theorem stateAfter_read (fl : String) (done : List Nat) (x : Nat) (rest : List Nat) :
    read (stateAfter fl done (x :: rest)) = (x, stateAfter fl (done ++ [x]) rest) := by
  have h : posFrom 1 0 (done ++ [x]) =
      advancePos ((posFrom 1 0 done).1, (posFrom 1 0 done).2) x := by
    simp [posFrom_append, posFrom]
  simp [read, stateAfter, h]

/-- The readWhile loop consumes a prefix of characters satisfying the
predicate and keeps the counters coherent with the consumed part. -/
theorem readWhileLoop_split (p : Nat → Bool) (fl : String) (rest : List Nat) :
    ∀ done : List Nat,
      ∃ ws rest₂, rest = ws ++ rest₂ ∧ (∀ y ∈ ws, p y = true) ∧
        readWhileLoop p fl rest (posFrom 1 0 done).1 (posFrom 1 0 done).2 =
          (ws, stateAfter fl (done ++ ws) rest₂) := by
  induction rest with
  | nil =>
    intro done
    exact ⟨[], [], by simp, by simp, by simp [readWhileLoop, stateAfter]⟩
  | cons x r ih =>
    intro done
    by_cases hx : p x = true
    · obtain ⟨ws', rest₂, hsplit, hall, heq⟩ := ih (done ++ [x])
      refine ⟨x :: ws', rest₂, by simp [← hsplit], ?_, ?_⟩
      · intro y hy
        rcases List.mem_cons.mp hy with hy | hy
        · exact hy ▸ hx
        · exact hall y hy
      · have hadv : advancePos ((posFrom 1 0 done).1, (posFrom 1 0 done).2) x =
            posFrom 1 0 (done ++ [x]) := by
          simp [posFrom_append, posFrom]
        calc readWhileLoop p fl (x :: r) (posFrom 1 0 done).1 (posFrom 1 0 done).2
            = (x :: (readWhileLoop p fl r (posFrom 1 0 (done ++ [x])).1
                (posFrom 1 0 (done ++ [x])).2).1,
               (readWhileLoop p fl r (posFrom 1 0 (done ++ [x])).1
                (posFrom 1 0 (done ++ [x])).2).2) := by
              simp [readWhileLoop, hx, ← hadv]
          _ = (x :: ws', stateAfter fl (done ++ x :: ws') rest₂) := by
              rw [heq]; simp
    · refine ⟨[], x :: r, rfl, by simp, ?_⟩
      simp [readWhileLoop, hx, stateAfter]

/-- skipWhitespace on a counter-coherent state whose head is a space
consumes a whitespace prefix and keeps the counters coherent. -/
theorem skipWhitespace_split (fl : String) (done : List Nat) (x : Nat) (rest : List Nat)
    (hx : isSpace x = true) :
    ∃ ws rest₂, x :: rest = ws ++ rest₂ ∧ (∀ y ∈ ws, isSpace y = true) ∧
      skipWhitespace (stateAfter fl done (x :: rest)) = stateAfter fl (done ++ ws) rest₂ := by
  obtain ⟨ws', rest₂, hsplit, hall, heq⟩ := readWhileLoop_split isSpace fl rest (done ++ [x])
  refine ⟨x :: ws', rest₂, by simp [← hsplit], ?_, ?_⟩
  · intro y hy
    rcases List.mem_cons.mp hy with hy | hy
    · exact hy ▸ hx
    · exact hall y hy
  · show (readWhile isSpace (stateAfter fl done (x :: rest))).2 = _
    rw [readWhile, stateAfter_read]
    simp only [stateAfter]
    rw [heq]
    simp [stateAfter]

/-- Every branch of the token switch stamps the token with the line and
column counters held at its entry. -/
theorem getNextTokenCore_line_col (fl : String) (done rest : List Nat) (tok : Token)
    (s₂ : LexState)
    (h : getNextTokenCore (stateAfter fl done rest) = .ok (tok, s₂)) :
    tok.line = (posFrom 1 0 done).1 ∧ tok.column = (posFrom 1 0 done).2 := by
  simp only [getNextTokenCore] at h
  split_ifs at h
  case _ =>
    simp only [Except.ok.injEq, Prod.mk.injEq] at h
    exact h.1 ▸ ⟨rfl, rfl⟩
  case _ =>
    simp only [Except.ok.injEq, Prod.mk.injEq] at h
    exact h.1 ▸ ⟨rfl, rfl⟩
  case _ =>
    simp only [Except.ok.injEq, Prod.mk.injEq] at h
    exact h.1 ▸ ⟨rfl, rfl⟩
  case _ =>
    simp only [Except.ok.injEq, Prod.mk.injEq] at h
    exact h.1 ▸ ⟨rfl, rfl⟩
  case _ =>
    simp only [scanComment, Except.ok.injEq, Prod.mk.injEq] at h
    exact h.1 ▸ ⟨rfl, rfl⟩
  case _ =>
    simp only [scanVariable, Except.ok.injEq, Prod.mk.injEq] at h
    exact h.1 ▸ ⟨rfl, rfl⟩
  case _ =>
    simp only [scanQuotedString] at h
    split at h
    · exact absurd h (by simp)
    · simp only [Except.ok.injEq, Prod.mk.injEq] at h
      exact h.1 ▸ ⟨rfl, rfl⟩
  case _ =>
    simp only [scanKeyword, Except.ok.injEq, Prod.mk.injEq] at h
    exact h.1 ▸ ⟨rfl, rfl⟩

/-- Relates the counters stamped on a token (a fold started at column 0)
to the true 1-based position of the token start (the same fold started
at column 1). -/
theorem counters_vs_position (D : List Nat) (tok : Token)
    (h1 : tok.line = (posFrom 1 0 D).1) (h2 : tok.column = (posFrom 1 0 D).2) :
    tok.line = (posFrom 1 1 D).1 ∧
    (tok.line = 1 → tok.column + 1 = (posFrom 1 1 D).2) ∧
    (1 < tok.line → tok.column = (posFrom 1 1 D).2) := by
  have hl0 := posFrom_line D 1 0
  have hl1 := posFrom_line D 1 1
  have hcs := posFrom_col_shift D 1 0
  refine ⟨by rw [h1, hl0, hl1], fun hline => ?_, fun hline => ?_⟩
  · have hcount : D.count 10 = 0 := by rw [h1, hl0] at hline; omega
    rw [h2]
    exact (hcs.1 hcount).symm
  · have hcount : D.count 10 ≠ 0 := by rw [h1, hl0] at hline; omega
    rw [h2, hcs.2 hcount]

/-- C7, counterexample.  The claim says every token carries the 1-based
column at which it starts; but on the input `;` the semicolon token
starts at line 1, column 1 (1-based) and carries column 0, because the
lexer column counter starts at the Go zero value 0 and is only advanced
to 1 by consuming the first character. -/
theorem C7_counterexample :
    getNextToken (lex (chars (r";"))) =
      .ok (⟨.Semicolon, [59], 1, 0⟩, ⟨[], r"", 1, 1⟩) :=
  rfl

/-- C7, amended.  Every token carries the 1-based line at which it
starts; the column it carries is one less than the 1-based start column
for tokens on the first line of input, and equals the 1-based start
column for tokens on later lines (a consumed line feed sets the counter
to 1).  Formally: scanning from a state whose counters are coherent with
a consumed prefix skips a whitespace run ws and stamps the token so that
its line is the 1-based line after done ++ ws, and its column relates to
the 1-based column after done ++ ws as described. -/
theorem C7_token_position (fl : String) (done rest : List Nat) (tok : Token) (s₂ : LexState)
    (h : getNextToken (stateAfter fl done rest) = .ok (tok, s₂)) :
    ∃ ws rest₂, rest = ws ++ rest₂ ∧ (∀ y ∈ ws, isSpace y = true) ∧
      tok.line = (posFrom 1 1 (done ++ ws)).1 ∧
      (tok.line = 1 → tok.column + 1 = (posFrom 1 1 (done ++ ws)).2) ∧
      (1 < tok.line → tok.column = (posFrom 1 1 (done ++ ws)).2) := by
  unfold getNextToken at h
  by_cases hs : isSpace (peek (stateAfter fl done rest)) = true
  · rcases rest with _ | ⟨x, r⟩
    · exact absurd hs (by simp [peek, stateAfter, isSpace, isEndOfLine, EOFch])
    · have hx : isSpace x = true := by simpa [peek, stateAfter] using hs
      rw [if_pos hs] at h
      obtain ⟨ws, rest₂, hsplit, hall, hskip⟩ := skipWhitespace_split fl done x r hx
      rw [hskip] at h
      have hc := getNextTokenCore_line_col fl (done ++ ws) rest₂ tok s₂ h
      exact ⟨ws, rest₂, hsplit, hall, counters_vs_position (done ++ ws) tok hc.1 hc.2⟩
  · rw [if_neg hs] at h
    have hc := getNextTokenCore_line_col fl done rest tok s₂ h
    refine ⟨[], rest, by simp, by simp, ?_⟩
    have := counters_vs_position done tok hc.1 hc.2
    simpa using this

/-- Witness for C7: the amended theorem applied to the one-character
input `;` scanned from the initial state. -/
theorem C7_witness :
    ∃ ws rest₂, ([59] : List Nat) = ws ++ rest₂ ∧ (∀ y ∈ ws, isSpace y = true) ∧
      (1 : Nat) = (posFrom 1 1 ([] ++ ws)).1 ∧
      ((1 : Nat) = 1 → 0 + 1 = (posFrom 1 1 ([] ++ ws)).2) ∧
      ((1 : Nat) < 1 → (0 : Nat) = (posFrom 1 1 ([] ++ ws)).2) :=
  C7_token_position (r"") [] [59] ⟨.Semicolon, [59], 1, 0⟩ ⟨[], r"", 1, 1⟩ rfl

/-!  Claims C8 and C9: the quoted-string scanner. -/

/-- If the closing condition never holds on the remaining characters,
the quoted-string loop returns the unterminated-string error, whatever
the buffer and counters. -/
theorem qsLoop_unterminated (n : Nat) :
    ∀ (inp : List Nat), inp.length ≤ n →
      ∀ (delim : Nat) (fl : String) (buf : List Nat) (l c : Nat),
        qsCloses delim inp = false → qsLoop delim fl buf inp l c = .error untermMsg := by
  induction n with
  | zero =>
    intro inp hlen delim fl buf l c _
    have : inp = [] := List.length_eq_zero.mp (Nat.le_zero.mp hlen)
    subst this
    rfl
  | succ n ih =>
    intro inp hlen delim fl buf l c hq
    rcases inp with _ | ⟨ch, rest⟩
    · rfl
    · rw [qsCloses.eq_def] at hq
      rw [qsLoop.eq_def]
      try simp only at hq ⊢
      by_cases h0 : ch = EOFch
      · rw [if_pos h0]
      · rw [if_neg h0] at hq ⊢
        by_cases hesc : (decide (ch = 92) && needsEscape (rest.headD EOFch) delim) = true
        · rw [if_pos hesc] at hq ⊢
          rcases rest with _ | ⟨c₂, rest₂⟩
          · rfl
          · exact ih rest₂ (by simp at hlen ⊢; omega) delim fl (buf ++ escDecode c₂ delim)
              (advancePos (advancePos (l, c) ch) c₂).1
              (advancePos (advancePos (l, c) ch) c₂).2 hq
        · rw [if_neg hesc] at hq ⊢
          simp only [Bool.or_eq_false_iff, decide_eq_false_iff_not] at hq
          rw [if_neg hq.1]
          exact ih rest (by simp at hlen ⊢; omega) delim fl (buf ++ [ch])
            (advancePos (l, c) ch).1 (advancePos (l, c) ch).2 hq.2

/-- C8.  When a quoted string opened by a quote character never reaches
its closing delimiter before end of input (the qsCloses mirror of the
scanning loop stays false), scan fails with the unterminated-string
lexical error instead of returning a token. -/
theorem C8_unterminated_string_error (delim : Nat) (inp : List Nat) (fl : String) (l c : Nat)
    (hq : isQuote delim = true) (hcl : qsCloses delim inp = false) :
    scan ⟨delim :: inp, fl, l, c⟩ = .error untermMsg := by
  have hδ : (delim = 34 ∨ delim = 39) ∨ delim = 96 := by simpa [isQuote] using hq
  have key : ∀ l₂ c₂ : Nat, qsLoop delim fl [delim] inp l₂ c₂ = .error untermMsg :=
    fun l₂ c₂ => qsLoop_unterminated inp.length inp le_rfl delim fl [delim] l₂ c₂ hcl
  rcases hδ with (h | h) | h <;> subst h <;>
    simp [scan, getNextToken, getNextTokenCore, scanQuotedString, peek, read,
      isSpace, isEndOfLine, isEOFch, EOFch, isQuote, key]

/-- Witness for C8: the input `"abc` (opening double quote never
closed) makes scan fail with the unterminated-string error. -/
theorem C8_witness :
    scan ⟨[34, 97, 98, 99], r"", 1, 0⟩ = .error untermMsg :=
  C8_unterminated_string_error 34 [97, 98, 99] (r"") 1 0 (by decide) (by decide)

/-- C9.  Escape decoding inside a quoted string: a backslash followed by
n, r, t, a backslash, or the opening delimiter consumes both characters
and appends the line feed, carriage return, tab, backslash, or delimiter
respectively (without closing the string); a backslash followed by any
other character is kept literally.  Concretely, the double-quoted input
whose characters are `"a\nb\\c\"d"` scans to a quoted-string token whose
literal is the opening quote, the content a, line feed, b, backslash, c,
double quote, d, and the closing quote. -/
theorem C9_escape_decoding :
    (∀ delim : Nat, isQuote delim = true →
      ∀ (fl : String) (buf rest : List Nat) (l c : Nat),
        qsLoop delim fl buf (92 :: 110 :: rest) l c = qsLoop delim fl (buf ++ [10]) rest l (c + 2) ∧
        qsLoop delim fl buf (92 :: 114 :: rest) l c = qsLoop delim fl (buf ++ [13]) rest l (c + 2) ∧
        qsLoop delim fl buf (92 :: 116 :: rest) l c = qsLoop delim fl (buf ++ [9]) rest l (c + 2) ∧
        qsLoop delim fl buf (92 :: 92 :: rest) l c = qsLoop delim fl (buf ++ [92]) rest l (c + 2) ∧
        qsLoop delim fl buf (92 :: delim :: rest) l c =
          qsLoop delim fl (buf ++ [delim]) rest l (c + 2) ∧
        (∀ x : Nat, needsEscape x delim = false →
          qsLoop delim fl buf (92 :: x :: rest) l c =
            qsLoop delim fl (buf ++ [92]) (x :: rest) l (c + 1))) ∧
    getNextToken (lex [34, 97, 92, 110, 98, 92, 92, 99, 92, 34, 100, 34]) =
      .ok (⟨.QuotedString, [34, 97, 10, 98, 92, 99, 34, 100, 34], 1, 0⟩, ⟨[], r"", 1, 12⟩) := by
  refine ⟨fun delim hq fl buf rest l c => ?_, rfl⟩
  have hδ : (delim = 34 ∨ delim = 39) ∨ delim = 96 := by simpa [isQuote] using hq
  refine ⟨?_, ?_, ?_, ?_, ?_, ?_⟩
  · simp [qsLoop, needsEscape, escDecode, advancePos, EOFch]
  · simp [qsLoop, needsEscape, escDecode, advancePos, EOFch]
  · simp [qsLoop, needsEscape, escDecode, advancePos, EOFch]
  · simp [qsLoop, needsEscape, escDecode, advancePos, EOFch]
  · rcases hδ with (h | h) | h <;> subst h <;>
      simp [qsLoop, needsEscape, escDecode, advancePos, EOFch]
  · intro x hx
    rcases hδ with (h | h) | h <;> subst h <;>
      simp [qsLoop, advancePos, EOFch, hx]

/-- Witness for C9: the escape equation for backslash-n and the
literal-backslash equation for a non-escape follower, at the double
quote delimiter. -/
theorem C9_witness :
    qsLoop 34 (r"") [] [92, 110, 34] 1 0 = qsLoop 34 (r"") [10] [34] 1 2 ∧
    qsLoop 34 (r"") [] [92, 120, 34] 1 0 = qsLoop 34 (r"") [92] [120, 34] 1 1 :=
  ⟨(C9_escape_decoding.1 34 (by decide) (r"") [] [34] 1 0).1,
   (C9_escape_decoding.1 34 (by decide) (r"") [] [34] 1 0).2.2.2.2.2 120 (by decide)⟩

/-- C10.  The parser constructor pre-reads two tokens: a lexer error on
the first scan is returned by the constructor as the lexical failure; a
lexer error on the second scan likewise; and concretely an input
beginning with an unterminated quoted string makes NewStringParser
itself return the unterminated-string lexical error, before Parse is
ever called. -/
theorem C10_constructor_prereads :
    (∀ (lx : LexState) (e : String),
        scan lx = .error e → NewParserFromLexer lx = .error (.lexical e)) ∧
    (∀ (lx : LexState) (t₁ : Token) (lx₁ : LexState) (e : String),
        scan lx = .ok (t₁, lx₁) → scan lx₁ = .error e →
        NewParserFromLexer lx = .error (.lexical e)) ∧
    NewStringParser (34 :: chars (r"abc")) = .error (.lexical untermMsg) := by
  refine ⟨fun lx e h => ?_, fun lx t₁ lx₁ e h₁ h₂ => ?_, rfl⟩
  · unfold NewParserFromLexer nextToken
    rw [h]
  · unfold NewParserFromLexer nextToken
    rw [h₁]
    simp only
    rw [h₂]

/-- Witness for C10: both general parts applied to concrete inputs, an
unterminated quote as the first token and as the second token. -/
theorem C10_witness :
    NewParserFromLexer (lex [34]) = .error (.lexical untermMsg) ∧
    NewParserFromLexer (lex [97, 32, 34]) = .error (.lexical untermMsg) :=
  ⟨C10_constructor_prereads.1 (lex [34]) untermMsg rfl,
   C10_constructor_prereads.2.1 (lex [97, 32, 34]) ⟨.Keyword, [97], 1, 0⟩
     ⟨[32, 34], r"", 1, 1⟩ untermMsg rfl rfl⟩

end Gonginx
